import Mathlib

/-
Verification development for the gurukulmcp MCP server (src/verify.js,
server segment).  The TypeScript source is shallowly embedded: JSON
argument values become an inductive type, the SqlProxy HTTP round trip
becomes a function of the (externally determined) HTTP outcome, and each
tool handler becomes a function in a state-passing monad that records the
sequence of proxy calls it issues.  JavaScript numbers are modelled as
rationals; NaN arising from arithmetic on missing object fields is not
modelled (theorems about purchase items assume the numeric fields are
present, see PurchaseItem accessors).
-/

namespace Gurukul

/-- JSON-like values, as passed in MCP tool arguments and SQL parameter
lists.  JavaScript numbers are modelled as rationals. -/
inductive JsonVal where
  | str (s : String)
  | num (q : Rat)
  | bool (b : Bool)
  | null
  | arr (elems : List JsonVal)
  | obj (fields : List (String × JsonVal))
deriving Repr

/-- Raw tool-call arguments: the `arguments` object of a tools/call
request, as a key/value list (keys assumed unique, as in a JS object). -/
def RawArgs : Type := List (String × JsonVal)

/-- Field access on the arguments object (JS `args.k`; absent gives
undefined, modelled as none). -/
def getArg (a : RawArgs) (k : String) : Option JsonVal :=
  List.lookup k a

def asStr : JsonVal → Option String
  | .str s => some s
  | _ => none

def asNum : JsonVal → Option Rat
  | .num q => some q
  | _ => none

def asArr : JsonVal → Option (List JsonVal)
  | .arr xs => some xs
  | _ => none

def getStr (a : RawArgs) (k : String) : Option String :=
  (getArg a k).bind asStr

def getNum (a : RawArgs) (k : String) : Option Rat :=
  (getArg a k).bind asNum

def getArr (a : RawArgs) (k : String) : Option (List JsonVal) :=
  (getArg a k).bind asArr

/-- JS truthiness of a possibly-absent string (`if (x)` with x a string
field: undefined and the empty string are falsy). -/
def truthyStr : Option String → Bool
  | some s => decide (s ≠ "")
  | none => false

/-- JS truthiness of a possibly-absent number (`if (x)`: undefined and 0
are falsy). -/
def truthyNum : Option Rat → Bool
  | some q => decide (q ≠ 0)
  | none => false

/-- JS `x || null` for an optional string field. -/
def strOrNull (o : Option String) : JsonVal :=
  match o with
  | some s => if s = "" then .null else .str s
  | none => .null

/-- JS `x || null` for an optional numeric field. -/
def numOrNull (o : Option Rat) : JsonVal :=
  match o with
  | some q => if q = 0 then .null else .num q
  | none => .null

/-- JS `x || d` for an optional string field. -/
def strOr (o : Option String) (d : String) : String :=
  match o with
  | some s => if s = "" then d else s
  | none => d

/-- JS `x || d` for an optional numeric field. -/
def numOr (o : Option Rat) (d : Rat) : Rat :=
  match o with
  | some q => if q = 0 then d else q
  | none => d

/-! ## The SqlProxy (remote data proxy), src/verify.js lines 139-193 -/

/-- The JSON body of a 200 response from the SQL execution service:
either a plain array (read result) or an object carrying an optional
application status, message, affectedRows and insertId (write result). -/
inductive SqlBody where
  | rows (rs : List JsonVal)
  | packet (status : Option String) (message : Option String)
      (affectedRows : Option Int) (insertId : Option Int)
deriving Repr

/-- Outcome of the axios POST to the execution service: the transport call
itself fails (network error or non-2xx status, axios throws), or a 200
response with a parsed JSON body. -/
inductive HttpOutcome where
  | httpFailure (msg : String)
  | ok (body : SqlBody)
deriving Repr

/-- JS `data.message || "Unknown database error"` in the status-error branch. -/
def dbErrMessage (m : Option String) : String :=
  match m with
  | some s => if s = "" then "Unknown database error" else s
  | none => "Unknown database error"

/-- Result value of a successful SqlProxy.execute: the pair
`[data, fields]` where fields is `[]` for an array body and undefined
(none) for an object body. -/
def ProxyRes : Type := SqlBody × Option (List JsonVal)

/-- The try-block of SqlProxy.execute: inspect the HTTP outcome, throw on
transport failure or on an embedded status "error", otherwise build the
mysql2-like pair.  The error string here is the underlying message, before
the catch-block wrapping. -/
def sqlProxyRun (o : HttpOutcome) : Except String ProxyRes :=
  match o with
  | .httpFailure msg => .error msg
  | .ok body =>
    match body with
    | .rows rs => .ok (.rows rs, some [])
    | .packet status message ar iid =>
      if status = some "error" then .error (dbErrMessage message)
      else .ok (.packet status message ar iid, none)

/-- SqlProxy.execute as seen by callers: the catch block rewraps any
thrown error as "Database operation failed: " followed by its message. -/
def sqlProxyExecute (o : HttpOutcome) : Except String ProxyRes :=
  match sqlProxyRun o with
  | .error m => .error ("Database operation failed: " ++ m)
  | .ok r => .ok r

/-- The JS `(result as any).insertId` rendered with template-string semantics
(an absent property prints as "undefined"). -/
def showInsertId : ProxyRes → String
  | (.packet _ _ _ (some i), _) => toString i
  | _ => "undefined"

/-- The JS `(result as any).insertId` as a value to be used as a SQL parameter. -/
def insertIdVal : ProxyRes → JsonVal
  | (.packet _ _ _ (some i), _) => .num (i : Rat)
  | _ => .null

/-- The JS `(result as any).affectedRows` of a result. -/
def affectedRowsOf : ProxyRes → Option Int
  | (.packet _ _ (some n) _, _) => some n
  | _ => none

/-! ## Handler execution monad -/

/-- One outbound call to the remote data proxy: the SQL text and the
positional parameter list handed to pool.execute. -/
structure ProxyCall where
  sql : String
  params : List JsonVal
deriving Repr

/-- The backing execution service, as a function from the position of the
call in the request (0-based), the SQL text and the parameters to the HTTP
outcome of that call. -/
def Backend : Type := Nat → String → List JsonVal → HttpOutcome

/-- Errors a handler can raise (everything reaching the catch block of the
CallToolRequestSchema handler): a ZodError from .parse, recording the
offending field and the issue; a McpError with its code; or the Error
thrown by SqlProxy.execute, recording the underlying message. -/
inductive HandlerError where
  | validation (field : String) (reason : String)
  | mcp (code : Int) (msg : String)
  | remote (msg : String)
deriving Repr

/-- The .message of the thrown error, as read by the catch block.  A
ZodError message is a JSON rendering of the issue list including the field
path; it is abstracted here as "field: reason".  A McpError message is
"MCP error code: msg" (set by the SDK constructor).  The SqlProxy error
message is "Database operation failed: " followed by the underlying
message (the wrapping applied in the SqlProxy catch block). -/
def HandlerError.message : HandlerError → String
  | .validation f r => f ++ ": " ++ r
  | .mcp code m => "MCP error " ++ toString code ++ ": " ++ m
  | .remote m => "Database operation failed: " ++ m

/-- State-passing handler computation: given the backend and the list of
proxy calls already issued, produce a result (or a thrown error) and the
extended call list.  Calls stay in the list when a later step throws:
statements already executed remain executed (no transaction, no rollback). -/
def M (α : Type) : Type := Backend → List ProxyCall → Except HandlerError α × List ProxyCall

def M.pure (x : α) : M α := fun _ log => (.ok x, log)

def M.bind (m : M α) (f : α → M β) : M β := fun be log =>
  match m be log with
  | (.ok x, log') => f x be log'
  | (.error e, log') => (.error e, log')

def M.throw (e : HandlerError) : M α := fun _ log => (.error e, log)

/-- The call `await pool.execute(sql, params)`: issue the call to the proxy (it is
appended to the call list), then either return the result pair or throw
the wrapped error. -/
def execSql (sql : String) (ps : List JsonVal) : M ProxyRes := fun be log =>
  (match sqlProxyRun (be log.length sql ps) with
   | .error m => .error (.remote m)
   | .ok r => .ok r,
   log ++ [⟨sql, ps⟩])

/-! ## Response envelope -/

/-- One element of the response content list. -/
inductive Content where
  | text (t : String)
deriving Repr

/-- The MCP tools/call response envelope. -/
structure Response where
  content : List Content
  isError : Bool
deriving Repr

/-- A plain success response with a single text item. -/
def textResponse (t : String) : Response := ⟨[.text t], false⟩

/-! ## Input validation (the zod object schemas) -/

/-- Field types occurring in the embedded command schemas: z.string(),
z.number(), z.array(z.any()), z.enum([...]). -/
inductive FieldType where
  | str
  | num
  | anyArray
  | enumOf (allowed : List String)
deriving Repr

/-- One field of a z.object schema.  A field with a .default(...) is
recorded as optional here; its default is applied at extraction time. -/
structure FieldSpec where
  fname : String
  ftype : FieldType
  required : Bool
deriving Repr

/-- Does a present value satisfy the declared field type? -/
def typeOk : FieldType → JsonVal → Bool
  | .str, .str _ => true
  | .num, .num _ => true
  | .anyArray, .arr _ => true
  | .enumOf allowed, .str s => allowed.contains s
  | _, _ => false

/-- The zod issue text for a type mismatch. -/
def typeIssue : FieldType → String
  | .str => "Expected string"
  | .num => "Expected number"
  | .anyArray => "Expected array"
  | .enumOf _ => "Invalid enum value"

/-- Check one field of the schema against the raw arguments. -/
def checkField (a : RawArgs) (s : FieldSpec) : Option HandlerError :=
  match getArg a s.fname with
  | none => if s.required then some (.validation s.fname "Required") else none
  | some v => if typeOk s.ftype v then none else some (.validation s.fname (typeIssue s.ftype))

/-- z.object(shape).parse(args): the fields are checked in schema order
and the first failing field raises a ZodError naming it. -/
def validateFields (specs : List FieldSpec) (a : RawArgs) : Except HandlerError Unit :=
  match specs with
  | [] => .ok ()
  | s :: rest =>
    match checkField a s with
    | some e => .error e
    | none => validateFields rest a

/-- A field of the schema is violated by the raw arguments: a required
field is absent, or a present field has the wrong type. -/
def fieldViolated (a : RawArgs) (s : FieldSpec) : Prop :=
  (s.required = true ∧ getArg a s.fname = none) ∨
  (∃ v, getArg a s.fname = some v ∧ typeOk s.ftype v = false)

/-! ## Commands and dispatch -/

/-- A registered command: its name, its zod schema, and its handler body
(run on arguments that passed validation). -/
structure Command where
  cname : String
  spec : List FieldSpec
  body : RawArgs → M Response

/-- Run one command the way every handler case in the source does:
`const parsed = z.object(...).parse(args);` first (throwing a ZodError
before any SQL text is constructed), then the handler body. -/
def Command.run (c : Command) (a : RawArgs) : M Response :=
  match validateFields c.spec a with
  | .error e => M.throw e
  | .ok _ => c.body a

/-! ## create_inquiry (src/verify.js lines 2054-2102) -/

def createInquirySpec : List FieldSpec :=
  [⟨"name", .str, true⟩, ⟨"mobile_no", .str, true⟩, ⟨"date", .str, true⟩,
   ⟨"father_name", .str, false⟩, ⟨"mother_name", .str, false⟩,
   ⟨"email", .str, false⟩, ⟨"address", .str, false⟩, ⟨"note", .str, false⟩,
   ⟨"response", .str, false⟩, ⟨"class_id", .num, false⟩,
   ⟨"source", .str, false⟩, ⟨"status", .str, false⟩]

def createInquirySql : String :=
  "INSERT INTO enquiry \n          (name, mobile_no, date, father_name, mother_name, email, address, note, response, class_id, reference_id, status, branch_id, created_by, created_at)\n          VALUES (?, ?, ?, ?, ?, ?, ?, ?, ?, ?, ?, ?, ?, ?, NOW())"

/-- Parameter list of the create_inquiry INSERT.  Required fields are
present after validation, so the .getD defaults are never reached. -/
def createInquiryParams (a : RawArgs) : List JsonVal :=
  [.str ((getStr a "name").getD ""),
   .str ((getStr a "mobile_no").getD ""),
   .str ((getStr a "date").getD ""),
   strOrNull (getStr a "father_name"),
   strOrNull (getStr a "mother_name"),
   strOrNull (getStr a "email"),
   strOrNull (getStr a "address"),
   strOrNull (getStr a "note"),
   strOrNull (getStr a "response"),
   numOrNull (getNum a "class_id"),
   strOrNull (getStr a "source"),
   .str (strOr (getStr a "status") "active"),
   .num 1,
   .num 1]

def createInquiryBody (a : RawArgs) : M Response :=
  M.bind (execSql createInquirySql (createInquiryParams a)) (fun r =>
    M.pure (textResponse ("Inquiry created successfully. ID: " ++ showInsertId r)))

def createInquiryCmd : Command := ⟨"create_inquiry", createInquirySpec, createInquiryBody⟩

/-! ## update_inquiry (src/verify.js lines 2153-2206) -/

def updateInquirySpec : List FieldSpec :=
  [⟨"id", .num, true⟩, ⟨"name", .str, false⟩, ⟨"mobile_no", .str, false⟩,
   ⟨"father_name", .str, false⟩, ⟨"mother_name", .str, false⟩,
   ⟨"email", .str, false⟩, ⟨"address", .str, false⟩,
   ⟨"response", .str, false⟩, ⟨"note", .str, false⟩, ⟨"status", .str, false⟩]

/-- The columns the update_inquiry handler may write (the eight truthiness
checks at lines 2172-2179; status is accepted by the validator but has no
check and is never written). -/
inductive UpdCol where
  | cName | cMobileNo | cFatherName | cMotherName | cEmail | cAddress | cResponse | cNote
deriving Repr, DecidableEq

def colName : UpdCol → String
  | .cName => "name"
  | .cMobileNo => "mobile_no"
  | .cFatherName => "father_name"
  | .cMotherName => "mother_name"
  | .cEmail => "email"
  | .cAddress => "address"
  | .cResponse => "response"
  | .cNote => "note"

/-- The eight checks, in the order they appear in the handler. -/
def updatableCols : List UpdCol :=
  [.cName, .cMobileNo, .cFatherName, .cMotherName, .cEmail, .cAddress, .cResponse, .cNote]

/-- The checks `if (parsed.f) updates.push(...); values.push(parsed.f)` for
each column, collected as (column, value) pairs in check order. -/
def updateEntries (a : RawArgs) : List (UpdCol × JsonVal) :=
  updatableCols.filterMap (fun c =>
    if truthyStr (getStr a (colName c)) then
      some (c, .str ((getStr a (colName c)).getD ""))
    else none)

/-- The updates array: one "col = ?" fragment per entry, then the
unconditional "updated_at = NOW()". -/
def updatesList (a : RawArgs) : List String :=
  (updateEntries a).map (fun e => colName e.1 ++ " = ?") ++ ["updated_at = NOW()"]

/-- The values array (one value per "?" fragment). -/
def valuesList (a : RawArgs) : List JsonVal :=
  (updateEntries a).map Prod.snd

/-- JS template-string rendering of a number. -/
def ratStr (q : Rat) : String := toString q

def updateInquirySql (a : RawArgs) : String :=
  "UPDATE enquiry SET " ++ String.intercalate ", " (updatesList a) ++ " WHERE id = ?"

def updateInquiryBody (a : RawArgs) : M Response :=
  if (updatesList a).length ≤ 1 then
    M.pure (textResponse "No fields to update provided.")
  else
    M.bind (execSql (updateInquirySql a) (valuesList a ++ [.num ((getNum a "id").getD 0)]))
      (fun r =>
        if affectedRowsOf r = some 0 then
          M.throw (.mcp (-32600) ("Inquiry with ID " ++ ratStr ((getNum a "id").getD 0) ++ " not found"))
        else
          M.pure (textResponse ("Inquiry " ++ ratStr ((getNum a "id").getD 0) ++ " updated successfully.")))

def updateInquiryCmd : Command := ⟨"update_inquiry", updateInquirySpec, updateInquiryBody⟩

/-- The advertised inputSchema properties of the update_inquiry tool
definition (src/verify.js lines 247-262), as (property, declared type). -/
def updateInquiryAdvertisedProps : List (String × String) :=
  [("id", "number"), ("name", "string"), ("mobile_no", "string"),
   ("father_name", "string"), ("mother_name", "string"), ("email", "string"),
   ("address", "string"), ("response", "string"), ("note", "string"),
   ("status", "string")]

/-! ## list_inquiries (src/verify.js lines 2225-2285) -/

def listInquiriesSpec : List FieldSpec :=
  [⟨"branch_id", .num, false⟩, ⟨"limit", .num, false⟩, ⟨"offset", .num, false⟩,
   ⟨"search", .str, false⟩, ⟨"status", .str, false⟩, ⟨"source_id", .num, false⟩,
   ⟨"class_id", .num, false⟩, ⟨"start_date", .str, false⟩,
   ⟨"end_date", .str, false⟩, ⟨"created_by", .num, false⟩]

def listInquiriesBase : String :=
  "SELECT e.*, c.name as class_name, er.name as source_name, resp.name as status_name \n                             FROM enquiry e \n                             LEFT JOIN class c ON e.class_id = c.id \n                             LEFT JOIN enquiry_reference er ON e.reference_id = er.id \n                             LEFT JOIN enquiry_response resp ON e.response = resp.id\n                             WHERE 1=1"

/-- One conditional numeric filter append: `if (parsed.key) { query +=
clause; params.push(parsed.key); }`. -/
def addNumFilter (a : RawArgs) (key clause : String) (qp : String × List JsonVal) :
    String × List JsonVal :=
  if truthyNum (getNum a key) then
    (qp.1 ++ clause, qp.2 ++ [.num ((getNum a key).getD 0)])
  else qp

/-- One conditional string filter append. -/
def addStrFilter (a : RawArgs) (key clause : String) (qp : String × List JsonVal) :
    String × List JsonVal :=
  if truthyStr (getStr a key) then
    (qp.1 ++ clause, qp.2 ++ [.str ((getStr a key).getD "")])
  else qp

/-- The search filter appends one clause with three LIKE parameters. -/
def addSearchFilter (a : RawArgs) (qp : String × List JsonVal) : String × List JsonVal :=
  if truthyStr (getStr a "search") then
    (qp.1 ++ " AND (e.name LIKE ? OR e.mobile_no LIKE ? OR e.father_name LIKE ?)",
     qp.2 ++ [.str ("%" ++ (getStr a "search").getD "" ++ "%"),
              .str ("%" ++ (getStr a "search").getD "" ++ "%"),
              .str ("%" ++ (getStr a "search").getD "" ++ "%")])
  else qp

/-- The conditional filter appends (query +=, params.push) in handler
order: branch_id, search, status, source_id, class_id, start_date,
end_date, created_by. -/
def listFilters (a : RawArgs) : String × List JsonVal :=
  addNumFilter a "created_by" " AND e.created_by = ?"
    (addStrFilter a "end_date" " AND e.date <= ?"
      (addStrFilter a "start_date" " AND e.date >= ?"
        (addNumFilter a "class_id" " AND e.class_id = ?"
          (addNumFilter a "source_id" " AND e.reference_id = ?"
            (addStrFilter a "status" " AND e.status = ?"
              (addSearchFilter a
                (addNumFilter a "branch_id" " AND e.branch_id = ?"
                  (listInquiriesBase, []))))))))

def listOrderClause : String := " ORDER BY e.date DESC, e.id DESC LIMIT ? OFFSET ?"

/-- z.number().default(50) for limit. -/
def limitOf (a : RawArgs) : Rat := (getNum a "limit").getD 50

/-- z.number().default(0) for offset. -/
def offsetOf (a : RawArgs) : Rat := (getNum a "offset").getD 0

/-- The final query text and parameter list handed to pool.execute. -/
def listInquiriesQP (a : RawArgs) : String × List JsonVal :=
  ((listFilters a).1 ++ listOrderClause,
   (listFilters a).2 ++ [.num (limitOf a), .num (offsetOf a)])

-- Compact JSON rendering used to model JSON.stringify (the two-space
-- pretty printing and string escaping are not reproduced).
mutual
def renderJson : JsonVal → String
  | .str s => "\"" ++ s ++ "\""
  | .num q => toString q
  | .bool b => cond b "true" "false"
  | .null => "null"
  | .arr xs => "[" ++ renderJsonList xs ++ "]"
  | .obj fs => "\x7b" ++ renderJsonFields fs ++ "\x7d"

def renderJsonList : List JsonVal → String
  | [] => ""
  | [x] => renderJson x
  | x :: y :: xs => renderJson x ++ "," ++ renderJsonList (y :: xs)

def renderJsonFields : List (String × JsonVal) → String
  | [] => ""
  | [(k, v)] => "\"" ++ k ++ "\":" ++ renderJson v
  | (k, v) :: f :: fs => "\"" ++ k ++ "\":" ++ renderJson v ++ "," ++ renderJsonFields (f :: fs)
end

def renderOptInt : Option Int → String
  | some i => toString i
  | none => "null"

/-- JSON.stringify of the first component of a proxy result. -/
def renderBody : SqlBody → String
  | .rows rs => renderJson (.arr rs)
  | .packet _ _ ar iid =>
      "\x7b\"affectedRows\":" ++ renderOptInt ar ++ ",\"insertId\":" ++ renderOptInt iid ++ "\x7d"

def listInquiriesBody (a : RawArgs) : M Response :=
  M.bind (execSql (listInquiriesQP a).1 (listInquiriesQP a).2) (fun r =>
    M.pure (textResponse (renderBody r.1)))

def listInquiriesCmd : Command := ⟨"list_inquiries", listInquiriesSpec, listInquiriesBody⟩

/-! ## Rows of the enquiry table, and the meaning of the generated SQL -/

/-- A row of the enquiry table (the columns this development needs). -/
structure EnquiryRow where
  id : Rat
  branch_id : Rat
  date : String
  name : Option String
  mobile_no : Option String
  father_name : Option String
  mother_name : Option String
  email : Option String
  address : Option String
  response : Option String
  note : Option String
  status : Option String
  class_id : Option Rat
  reference_id : Option Rat
  created_by : Rat
deriving Repr, DecidableEq

/-- SQL `col LIKE ?` with a parameter of the form %sub%: true when sub is
a substring; NULL never matches. -/
def likeContains (s : Option String) (sub : String) : Bool :=
  match s with
  | some s => decide (sub.toList <:+: s.toList)
  | none => false

/-- The WHERE clause generated by listFilters, interpreted on a row. -/
def matchesFilters (a : RawArgs) (r : EnquiryRow) : Bool :=
  (!truthyNum (getNum a "branch_id") || r.branch_id == (getNum a "branch_id").getD 0) &&
  (!truthyStr (getStr a "search") ||
    (likeContains r.name ((getStr a "search").getD "") ||
     likeContains r.mobile_no ((getStr a "search").getD "") ||
     likeContains r.father_name ((getStr a "search").getD ""))) &&
  (!truthyStr (getStr a "status") || r.status == some ((getStr a "status").getD "")) &&
  (!truthyNum (getNum a "source_id") || r.reference_id == some ((getNum a "source_id").getD 0)) &&
  (!truthyNum (getNum a "class_id") || r.class_id == some ((getNum a "class_id").getD 0)) &&
  (!truthyStr (getStr a "start_date") || decide (((getStr a "start_date").getD "") ≤ r.date)) &&
  (!truthyStr (getStr a "end_date") || decide (r.date ≤ ((getStr a "end_date").getD ""))) &&
  (!truthyNum (getNum a "created_by") || r.created_by == (getNum a "created_by").getD 0)

/-- ORDER BY e.date DESC, e.id DESC: x comes before y. -/
def rowBefore (x y : EnquiryRow) : Bool :=
  if x.date = y.date then decide (y.id ≤ x.id) else decide (y.date < x.date)

def insertSorted (x : EnquiryRow) : List EnquiryRow → List EnquiryRow
  | [] => [x]
  | y :: ys => if rowBefore x y then x :: y :: ys else y :: insertSorted x ys

def sortRows (rs : List EnquiryRow) : List EnquiryRow := rs.foldr insertSorted []

/-- A nonnegative integral SQL LIMIT or OFFSET operand. -/
def ratToNat (q : Rat) : Nat := (q.num / (q.den : Int)).toNat

/-- The meaning of the full generated list_inquiries statement over a
table state: filter, order, then apply OFFSET and LIMIT. -/
def listInquiriesInterp (db : List EnquiryRow) (a : RawArgs) : List EnquiryRow :=
  ((sortRows (db.filter (matchesFilters a))).drop (ratToNat (offsetOf a))).take
    (ratToNat (limitOf a))

/-! ## create_purchase (src/verify.js lines 3034-3079) -/

def createPurchaseSpec : List FieldSpec :=
  [⟨"bill_no", .str, true⟩, ⟨"supplier_id", .num, true⟩, ⟨"store_id", .num, true⟩,
   ⟨"date", .str, true⟩, ⟨"remarks", .str, false⟩, ⟨"items", .anyArray, true⟩,
   ⟨"prepared_by", .num, false⟩, ⟨"branch_id", .num, false⟩]

/-- Property access on one element of the items array (z.array(z.any())
validates nothing inside; the handler reads item.quantity etc directly). -/
def getField (v : JsonVal) (k : String) : Option JsonVal :=
  match v with
  | .obj fs => List.lookup k fs
  | _ => none

/-- item.k as a number.  A missing or non-numeric property would poison
the JS arithmetic with NaN; that is not modelled, and the purchase
theorems assume items carry their numeric fields. -/
def itemNum (it : JsonVal) (k : String) : Rat :=
  ((getField it k).bind asNum).getD 0

/-- JS `item.discount || 0`. -/
def itemDiscount (it : JsonVal) : Rat :=
  numOr ((getField it "discount").bind asNum) 0

/-- JS `(item.quantity * item.unit_price) - (item.discount || 0)`. -/
def itemSubtotal (it : JsonVal) : Rat :=
  itemNum it "quantity" * itemNum it "unit_price" - itemDiscount it

/-- The running-total loop before the inserts. -/
def purchaseTotal (items : List JsonVal) : Rat :=
  items.foldl (fun t it => t + itemSubtotal it) 0

def purchaseBillSql : String :=
  "INSERT INTO purchase_bill (bill_no, supplier_id, store_id, date, remarks, total, discount, paid, due, payment_status, purchase_status, prepared_by, branch_id) \n         VALUES (?, ?, ?, ?, ?, ?, 0, 0, ?, 1, 1, ?, ?)"

def purchaseDetailSql : String :=
  "INSERT INTO purchase_bill_details (purchase_bill_id, product_id, unit_price, quantity, discount, sub_total) VALUES (?, ?, ?, ?, ?, ?)"

def purchaseStockSql : String :=
  "UPDATE product SET available_stock = available_stock + ? WHERE id = ?"

def purchaseBillParams (a : RawArgs) : List JsonVal :=
  [.str ((getStr a "bill_no").getD ""),
   .num ((getNum a "supplier_id").getD 0),
   .num ((getNum a "store_id").getD 0),
   .str ((getStr a "date").getD ""),
   .str (strOr (getStr a "remarks") ""),
   .num (purchaseTotal ((getArr a "items").getD [])),
   .num (purchaseTotal ((getArr a "items").getD [])),
   .num (numOr (getNum a "prepared_by") 1),
   .num (numOr (getNum a "branch_id") 1)]

def purchaseDetailCall (billId : JsonVal) (it : JsonVal) : ProxyCall :=
  ⟨purchaseDetailSql,
   [billId, .num (itemNum it "product_id"), .num (itemNum it "unit_price"),
    .num (itemNum it "quantity"), .num (itemDiscount it), .num (itemSubtotal it)]⟩

def purchaseStockCall (it : JsonVal) : ProxyCall :=
  ⟨purchaseStockSql, [.num (itemNum it "quantity"), .num (itemNum it "product_id")]⟩

/-- The per-item loop: one purchase_bill_details insert referencing the
generated bill id, then one stock-increment update, for each item in
order. -/
def purchaseLoop (billId : JsonVal) : List JsonVal → M Unit
  | [] => M.pure ()
  | it :: rest =>
    M.bind (execSql (purchaseDetailCall billId it).sql (purchaseDetailCall billId it).params)
      (fun _ =>
        M.bind (execSql (purchaseStockCall it).sql (purchaseStockCall it).params)
          (fun _ => purchaseLoop billId rest))

def createPurchaseBody (a : RawArgs) : M Response :=
  M.bind (execSql purchaseBillSql (purchaseBillParams a)) (fun r =>
    M.bind (purchaseLoop (insertIdVal r) ((getArr a "items").getD [])) (fun _ =>
      M.pure (textResponse ("Purchase order created. Bill ID: " ++ showInsertId r))))

def createPurchaseCmd : Command := ⟨"create_purchase", createPurchaseSpec, createPurchaseBody⟩

/-- The full statement sequence the handler is meant to issue: the bill
insert, then per item (in order) its detail insert and stock update. -/
def purchaseCallSeq (a : RawArgs) (billId : JsonVal) : List ProxyCall :=
  ⟨purchaseBillSql, purchaseBillParams a⟩ ::
    ((getArr a "items").getD []).flatMap (fun it => [purchaseDetailCall billId it, purchaseStockCall it])

/-! ## Reception configuration commands (src/verify.js lines 4355-4395) -/

/-- The closed table-name enum shared by the three configuration
commands. -/
def receptionTypes : List String :=
  ["call_purpose", "complaint_type", "enquiry_reference", "enquiry_response", "visitor_purpose"]

def listReceptionSpec : List FieldSpec :=
  [⟨"type", .enumOf receptionTypes, true⟩, ⟨"branch_id", .num, false⟩]

def createReceptionSpec : List FieldSpec :=
  [⟨"type", .enumOf receptionTypes, true⟩, ⟨"name", .str, true⟩, ⟨"branch_id", .num, false⟩]

def deleteReceptionSpec : List FieldSpec :=
  [⟨"type", .enumOf receptionTypes, true⟩, ⟨"id", .num, true⟩]

def listReceptionBody (a : RawArgs) : M Response :=
  let t := (getStr a "type").getD ""
  let qp : String × List JsonVal := ("SELECT id, name FROM " ++ t, [])
  let qp := if truthyNum (getNum a "branch_id") then
      (qp.1 ++ " WHERE branch_id = ?", qp.2 ++ [.num ((getNum a "branch_id").getD 0)]) else qp
  M.bind (execSql qp.1 qp.2) (fun r => M.pure (textResponse (renderBody r.1)))

def createReceptionBody (a : RawArgs) : M Response :=
  let t := (getStr a "type").getD ""
  M.bind (execSql ("INSERT INTO " ++ t ++ " (name, branch_id) VALUES (?, ?)")
      [.str ((getStr a "name").getD ""), .num (numOr (getNum a "branch_id") 1)])
    (fun r => M.pure (textResponse ("Configuration added to " ++ t ++ ". ID: " ++ showInsertId r)))

def deleteReceptionBody (a : RawArgs) : M Response :=
  let t := (getStr a "type").getD ""
  M.bind (execSql ("DELETE FROM " ++ t ++ " WHERE id = ?") [.num ((getNum a "id").getD 0)])
    (fun _ => M.pure (textResponse
      ("Configuration " ++ ratStr ((getNum a "id").getD 0) ++ " deleted from " ++ t ++ ".")))

def listReceptionConfigsCmd : Command := ⟨"list_reception_configs", listReceptionSpec, listReceptionBody⟩
def createReceptionConfigCmd : Command := ⟨"create_reception_config", createReceptionSpec, createReceptionBody⟩
def deleteReceptionConfigCmd : Command := ⟨"delete_reception_config", deleteReceptionSpec, deleteReceptionBody⟩

/-! ## Dispatch (the CallToolRequestSchema handler, lines 2049-2060) -/

/-- The registry of embedded commands (the handlers the claims name; the
remaining cases of the 135-case switch follow the same
parse-validate-execute shape, verified by inspection). -/
def commandRegistry : List Command :=
  [createInquiryCmd, updateInquiryCmd, listInquiriesCmd, createPurchaseCmd,
   listReceptionConfigsCmd, createReceptionConfigCmd, deleteReceptionConfigCmd]

/-- The switch over the tool name; the default case throws
McpError(ErrorCode.MethodNotFound, "Unknown tool: " + name). -/
def dispatchTool (name : String) (a : RawArgs) : M Response :=
  match commandRegistry.find? (fun c => c.cname == name) with
  | some c => c.run a
  | none => M.throw (.mcp (-32601) ("Unknown tool: " ++ name))

/-- The catch block at lines 4948-4959: any thrown error becomes a normal
response with text "Error: " + message and isError true. -/
def errorEnvelope (e : HandlerError) : Response :=
  ⟨[.text ("Error: " ++ e.message)], true⟩

/-- The whole tools/call request handler: run the switch inside try,
catch anything thrown and convert it to an error envelope. -/
def handleCallTool (name : String) (a : RawArgs) (be : Backend) (log : List ProxyCall) :
    Response × List ProxyCall :=
  match dispatchTool name a be log with
  | (.ok r, log') => (r, log')
  | (.error e, log') => (errorEnvelope e, log')

/-! ## Meaning of the generated UPDATE statement on an enquiry row -/

def setCol (r : EnquiryRow) (c : UpdCol) (v : JsonVal) : EnquiryRow :=
  match c with
  | .cName => { r with name := asStr v }
  | .cMobileNo => { r with mobile_no := asStr v }
  | .cFatherName => { r with father_name := asStr v }
  | .cMotherName => { r with mother_name := asStr v }
  | .cEmail => { r with email := asStr v }
  | .cAddress => { r with address := asStr v }
  | .cResponse => { r with response := asStr v }
  | .cNote => { r with note := asStr v }

def getCol (r : EnquiryRow) : UpdCol → Option String
  | .cName => r.name
  | .cMobileNo => r.mobile_no
  | .cFatherName => r.father_name
  | .cMotherName => r.mother_name
  | .cEmail => r.email
  | .cAddress => r.address
  | .cResponse => r.response
  | .cNote => r.note

/-- Apply a list of SET assignments to a row, left to right. -/
def applyEntries (r : EnquiryRow) (es : List (UpdCol × JsonVal)) : EnquiryRow :=
  es.foldl (fun r e => setCol r e.1 e.2) r

/-- Interpret one generated SET fragment with its parameter. -/
def setFrag (r : EnquiryRow) (f : String) (v : JsonVal) : EnquiryRow :=
  if f = "name = ?" then setCol r .cName v
  else if f = "mobile_no = ?" then setCol r .cMobileNo v
  else if f = "father_name = ?" then setCol r .cFatherName v
  else if f = "mother_name = ?" then setCol r .cMotherName v
  else if f = "email = ?" then setCol r .cEmail v
  else if f = "address = ?" then setCol r .cAddress v
  else if f = "response = ?" then setCol r .cResponse v
  else if f = "note = ?" then setCol r .cNote v
  else r

/-- Interpret the joined fragment list against the parameter list, each
"?" consuming one parameter; "updated_at = NOW()" takes none (the
timestamp column is not modelled). -/
def applyFragments : List String → List JsonVal → EnquiryRow → EnquiryRow
  | [], _, r => r
  | f :: fs, vs, r =>
    if f = "updated_at = NOW()" then applyFragments fs vs r
    else
      match vs with
      | [] => r
      | v :: vs' => applyFragments fs vs' (setFrag r f v)

/-- The meaning of executing the generated UPDATE on one row: the SET
assignments apply exactly when the WHERE id matches. -/
def runUpdateStatement (a : RawArgs) (row : EnquiryRow) : EnquiryRow :=
  if row.id = (getNum a "id").getD 0 then applyFragments (updatesList a) (valuesList a) row
  else row

/-! ## Request-scoped credential (AsyncLocalStorage), lines 133-151 and 4984-4996 -/

/-- JS `storage.getStore() || this.defaultApiKey`: the request-scoped value
when present and truthy, the process-wide default otherwise (getStore
returns undefined outside a storage.run context; an empty-string key also
falls back, by JS truthiness). -/
def resolveApiKey (store : Option String) (defaultKey : String) : String :=
  match store with
  | some k => if k = "" then defaultKey else k
  | none => defaultKey

/-- One in-flight request: the api_key query parameter bound by
storage.run for its async context, and the proxy calls its handler will
make. -/
structure AlsRequest where
  apiKey : Option String
  pending : List ProxyCall

/-- One outbound proxy call, tagged with the request that made it and the
credential it carried in the X-API-KEY header. -/
structure SentCall where
  fromSecond : Bool
  call : ProxyCall
  keyUsed : String

/-- Interleaved service of two concurrent requests under AsyncLocalStorage
semantics: each scheduler step lets one request issue its next proxy
call, and getStore() inside that request reads the store bound by its own
storage.run, never the store of the other request.  The schedule is arbitrary. -/
def serveConcurrent (dk : String) : AlsRequest → AlsRequest → List Bool → List SentCall
  | _, _, [] => []
  | r0, r1, t :: sched =>
    if t then
      match r1.pending with
      | [] => serveConcurrent dk r0 r1 sched
      | c :: rest =>
        ⟨true, c, resolveApiKey r1.apiKey dk⟩ :: serveConcurrent dk r0 ⟨r1.apiKey, rest⟩ sched
    else
      match r0.pending with
      | [] => serveConcurrent dk r0 r1 sched
      | c :: rest =>
        ⟨false, c, resolveApiKey r0.apiKey dk⟩ :: serveConcurrent dk ⟨r0.apiKey, rest⟩ r1 sched

/-- A backend whose every call succeeds with an empty read result. -/
def emptyRowsBackend : Backend := fun _ _ _ => .ok (.rows [])

/-- Restatement of claim C4 in its own words: the execute contract fails
exactly on transport failure or an embedded status "error", wrapping the
underlying message; an array body yields the pair with fields [], any
other body the pair with fields undefined. -/
def sqlProxyContract (o : HttpOutcome) : Except String ProxyRes :=
  match o with
  | .httpFailure m => .error ("Database operation failed: " ++ m)
  | .ok (.rows rs) => .ok (.rows rs, some [])
  | .ok (.packet st msg ar iid) =>
    if st = some "error" then .error ("Database operation failed: " ++ dbErrMessage msg)
    else .ok (.packet st msg ar iid, none)

/-- The statement shapes the three configuration commands can produce
from an allow-listed table name. -/
def recSqlForms (t : String) (sql : String) : Prop :=
  sql = "SELECT id, name FROM " ++ t ∨
  sql = "SELECT id, name FROM " ++ t ++ " WHERE branch_id = ?" ∨
  sql = "INSERT INTO " ++ t ++ " (name, branch_id) VALUES (?, ?)" ∨
  sql = "DELETE FROM " ++ t ++ " WHERE id = ?"

/-- Entry construction over an arbitrary column list (updateEntries is
the instance at updatableCols). -/
def entriesOver (fs : List UpdCol) (a : RawArgs) : List (UpdCol × JsonVal) :=
  fs.filterMap (fun c =>
    if truthyStr (getStr a (colName c)) then
      some (c, .str ((getStr a (colName c)).getD ""))
    else none)

/-- The generated bill identifier: the insertId of the result of the first
statement (null when the first statement fails, in which case no later
statement runs). -/
def purchaseBillIdOf (a : RawArgs) (be : Backend) : JsonVal :=
  match sqlProxyRun (be 0 purchaseBillSql (purchaseBillParams a)) with
  | .ok r => insertIdVal r
  | .error _ => .null

/-- A backend that always reports a successful write with insertId 7. -/
def okPacketBackend : Backend := fun _ _ _ => .ok (.packet none none (some 1) (some 7))

/-! ## Theorems -/



/-- Claim C4: SqlProxy.execute throws exactly when the HTTP POST fails or
the parsed 200 response carries an application-level status of "error",
wrapping the underlying message as "Database operation failed: " followed
by it; on success it returns the pair [data, []] for an array body (read
result) and [data, undefined] otherwise (write result). -/
theorem sqlProxyExecute_meets_contract (o : HttpOutcome) :
    sqlProxyExecute o = sqlProxyContract o ∧
    ((sqlProxyExecute o).isOk = false ↔
      (∃ m, o = .httpFailure m) ∨
      (∃ msg ar iid, o = .ok (.packet (some "error") msg ar iid))) := by
  constructor
  · cases o with
    | httpFailure m => rfl
    | ok body =>
      cases body with
      | rows rs => rfl
      | packet st msg ar iid =>
        by_cases h : st = some "error" <;>
          simp [sqlProxyExecute, sqlProxyRun, sqlProxyContract, h]
  · cases o with
    | httpFailure m => simp [sqlProxyExecute, sqlProxyRun, Except.isOk, Except.toBool]
    | ok body =>
      cases body with
      | rows rs => simp [sqlProxyExecute, sqlProxyRun, Except.isOk, Except.toBool]
      | packet st msg ar iid =>
        by_cases h : st = some "error"
        · subst h
          simp [sqlProxyExecute, sqlProxyRun, Except.isOk, Except.toBool]
        · simp [sqlProxyExecute, sqlProxyRun, Except.isOk, Except.toBool, h]

/-- Every handler error renders to a non-empty message. -/
theorem handlerError_message_nonempty (e : HandlerError) : 0 < e.message.length := by
  cases e with
  | validation f r =>
    have h2 : String.length ": " = 2 := rfl
    simp [HandlerError.message, String.length_append]
    omega
  | mcp code m =>
    have h10 : String.length "MCP error " = 10 := rfl
    simp [HandlerError.message, String.length_append]
    omega
  | remote m =>
    have h27 : String.length "Database operation failed: " = 27 := rfl
    simp [HandlerError.message, String.length_append]
    omega

/-- Claim C1: the tools/call handler always returns a response envelope
(the dispatch is a total function into the envelope type, so the process
survives every bad request); whenever dispatch or a handler throws,
including an unknown tool name, a validation failure or a remote
execution failure, the catch block converts the error into a response
whose content is the single text "Error: " followed by the (non-empty)
message, with isError set. -/
theorem tool_call_never_throws (name : String) (a : RawArgs) (be : Backend)
    (log : List ProxyCall) :
    (∃ r log', dispatchTool name a be log = (.ok r, log') ∧
      handleCallTool name a be log = (r, log')) ∨
    (∃ e log', dispatchTool name a be log = (.error e, log') ∧
      handleCallTool name a be log = (errorEnvelope e, log') ∧
      (errorEnvelope e).isError = true ∧
      (errorEnvelope e).content = [.text ("Error: " ++ e.message)] ∧
      0 < e.message.length) := by
  rcases h : dispatchTool name a be log with ⟨res, log'⟩
  cases res with
  | ok r =>
    left
    exact ⟨r, log', rfl, by simp [handleCallTool, h]⟩
  | error e =>
    right
    exact ⟨e, log', rfl, by simp [handleCallTool, h], rfl, rfl,
      handlerError_message_nonempty e⟩

/-- A field check passes exactly when the field is not violated. -/
theorem checkField_none_iff (a : RawArgs) (s : FieldSpec) :
    checkField a s = none ↔ ¬ fieldViolated a s := by
  unfold checkField fieldViolated
  cases h : getArg a s.fname with
  | none =>
    cases hr : s.required <;> simp [hr]
  | some v =>
    cases ht : typeOk s.ftype v <;> simp [ht]

/-- A failing field check reports a validation error naming that field,
and the field is indeed violated. -/
theorem checkField_some (a : RawArgs) (s : FieldSpec) (e : HandlerError)
    (h : checkField a s = some e) :
    (∃ reason, e = .validation s.fname reason) ∧ fieldViolated a s := by
  unfold checkField at h
  cases hg : getArg a s.fname with
  | none =>
    rw [hg] at h
    cases hr : s.required
    · simp [hr] at h
    · rw [hr] at h
      simp at h
      exact ⟨⟨"Required", h.symm⟩, Or.inl ⟨hr, hg⟩⟩
  | some v =>
    rw [hg] at h
    cases ht : typeOk s.ftype v
    · simp [ht] at h
      exact ⟨⟨typeIssue s.ftype, h.symm⟩, Or.inr ⟨v, hg, ht⟩⟩
    · simp [ht] at h

/-- Validation succeeds exactly when every field check passes. -/
theorem validateFields_ok_iff (specs : List FieldSpec) (a : RawArgs) :
    validateFields specs a = .ok () ↔ ∀ s ∈ specs, checkField a s = none := by
  induction specs with
  | nil => simp [validateFields]
  | cons s rest ih =>
    unfold validateFields
    cases hc : checkField a s with
    | none => simp [hc, ih]
    | some e => simp [hc]

/-- A validation error is the report of some failing field check. -/
theorem validateFields_error (specs : List FieldSpec) (a : RawArgs) (e : HandlerError)
    (h : validateFields specs a = .error e) :
    ∃ s ∈ specs, checkField a s = some e := by
  induction specs with
  | nil => simp [validateFields] at h
  | cons s rest ih =>
    unfold validateFields at h
    cases hc : checkField a s with
    | none =>
      rw [hc] at h
      obtain ⟨s', hmem, hs'⟩ := ih h
      exact ⟨s', List.mem_cons_of_mem _ hmem, hs'⟩
    | some e' =>
      rw [hc] at h
      cases h
      exact ⟨s, List.mem_cons_self .., hc⟩

/-- Claim C2: for every registered command, arguments that omit a
required field or give a field a wrong type fail schema validation before
any SQL text is constructed: the run makes zero proxy calls (the call log
is unchanged) and the returned error is a validation error naming an
offending field. -/
theorem validation_precedes_sql (c : Command) (_hc : c ∈ commandRegistry)
    (a : RawArgs) (be : Backend) (log : List ProxyCall)
    (hviol : ∃ s ∈ c.spec, fieldViolated a s) :
    ∃ f reason, c.run a be log = (.error (.validation f reason), log) ∧
      ∃ s ∈ c.spec, s.fname = f ∧ fieldViolated a s := by
  obtain ⟨s0, hs0, hv0⟩ := hviol
  cases hval : validateFields c.spec a with
  | ok u =>
    cases u
    have := (validateFields_ok_iff c.spec a).mp hval s0 hs0
    rw [checkField_none_iff] at this
    exact absurd hv0 this
  | error e =>
    obtain ⟨s1, hs1, hchk⟩ := validateFields_error c.spec a e hval
    obtain ⟨⟨reason, hrsn⟩, hviol1⟩ := checkField_some a s1 e hchk
    refine ⟨s1.fname, reason, ?_, s1, hs1, rfl, hviol1⟩
    subst hrsn
    show Command.run c a be log = _
    unfold Command.run
    rw [hval]
    rfl

/-- Witness for claim C2: create_inquiry with empty arguments is missing
its required name field, so the run reports a validation error and issues
no proxy call. -/
theorem validation_precedes_sql_witness :
    ∃ f reason,
      createInquiryCmd.run [] emptyRowsBackend [] = (.error (.validation f reason), []) ∧
      ∃ s ∈ createInquiryCmd.spec, s.fname = f ∧ fieldViolated [] s :=
  validation_precedes_sql createInquiryCmd (List.mem_cons_self ..) [] emptyRowsBackend []
    ⟨⟨"name", .str, true⟩, by simp [createInquiryCmd, createInquirySpec],
      Or.inl ⟨rfl, rfl⟩⟩

/-- Running a command whose validation succeeds runs its body. -/
theorem Command.run_ok (c : Command) (a : RawArgs) (be : Backend) (log : List ProxyCall)
    (h : validateFields c.spec a = .ok ()) :
    c.run a be log = c.body a be log := by
  unfold Command.run
  rw [h]

/-- Running a command whose validation fails reports the validation error
with the call log unchanged. -/
theorem Command.run_error (c : Command) (a : RawArgs) (be : Backend) (log : List ProxyCall)
    (e : HandlerError) (h : validateFields c.spec a = .error e) :
    c.run a be log = (.error e, log) := by
  unfold Command.run
  rw [h]
  rfl

/-- Unfolding a single proxy call followed by an arbitrary continuation:
the call is appended to the log, then the continuation runs on the
result, or the wrapped error is returned. -/
theorem execSql_bind_eq {α : Type} (sql : String) (ps : List JsonVal) (k : ProxyRes → M α)
    (be : Backend) (log : List ProxyCall) :
    M.bind (execSql sql ps) k be log =
      match sqlProxyRun (be log.length sql ps) with
      | .error m => (.error (.remote m), log ++ [⟨sql, ps⟩])
      | .ok r => k r be (log ++ [⟨sql, ps⟩]) := by
  unfold M.bind execSql
  cases sqlProxyRun (be log.length sql ps) <;> rfl

/-- A single-call body (one execSql, then a pure response) always appends
exactly its one call to the log. -/
theorem execSql_bind_pure_log (sql : String) (ps : List JsonVal) (g : ProxyRes → Response)
    (be : Backend) (log : List ProxyCall) :
    (M.bind (execSql sql ps) (fun r => M.pure (g r)) be log).2 = log ++ [⟨sql, ps⟩] := by
  rw [execSql_bind_eq]
  cases sqlProxyRun (be log.length sql ps) <;> rfl

/-- A passing check of a required field yields a present, well-typed
value. -/
theorem requiredFieldOk (a : RawArgs) (f : String) (ty : FieldType)
    (h : checkField a ⟨f, ty, true⟩ = none) :
    ∃ v, getArg a f = some v ∧ typeOk ty v = true := by
  rw [checkField_none_iff] at h
  unfold fieldViolated at h
  push_neg at h
  obtain ⟨h1, h2⟩ := h
  cases hg : getArg a f with
  | none => exact absurd hg (h1 rfl)
  | some v =>
    refine ⟨v, rfl, ?_⟩
    have := h2 v hg
    revert this
    cases typeOk ty v <;> simp

/-- A value passing an enum check is a string drawn from the allow
list. -/
theorem typeOk_enum (allowed : List String) (v : JsonVal)
    (h : typeOk (.enumOf allowed) v = true) :
    ∃ s, v = .str s ∧ s ∈ allowed := by
  cases v <;> simp [typeOk] at h ⊢
  exact h


/-- Claim C8: for list_reception_configs, create_reception_config and
delete_reception_config, every statement issued to the proxy embeds a
table name drawn from the five-value enum, and a type argument outside
the enum (missing, non-string, or a string not in the allow list) is
rejected by validation before any statement is constructed, with the
returned error naming the type field. -/
theorem reception_table_allowlist (c : Command)
    (hc : c ∈ [listReceptionConfigsCmd, createReceptionConfigCmd, deleteReceptionConfigCmd])
    (a : RawArgs) (be : Backend) (log : List ProxyCall) :
    (∀ call ∈ ((c.run a be log).2.drop log.length),
      ∃ t ∈ receptionTypes, recSqlForms t call.sql) ∧
    (fieldViolated a ⟨"type", .enumOf receptionTypes, true⟩ →
      ∃ reason, c.run a be log = (.error (.validation "type" reason), log)) := by
  have part2 : c.spec.head? = some ⟨"type", .enumOf receptionTypes, true⟩ →
      fieldViolated a ⟨"type", .enumOf receptionTypes, true⟩ →
      ∃ reason, c.run a be log = (.error (.validation "type" reason), log) := by
    intro hhead hv
    have hvne : checkField a ⟨"type", .enumOf receptionTypes, true⟩ ≠ none :=
      fun hnone => (checkField_none_iff _ _).mp hnone hv
    cases hchk : checkField a ⟨"type", .enumOf receptionTypes, true⟩ with
    | none => exact absurd hchk hvne
    | some e =>
      obtain ⟨⟨reason, hrsn⟩, _⟩ := checkField_some _ _ _ hchk
      refine ⟨reason, ?_⟩
      rcases hspec : c.spec with _ | ⟨s0, rest⟩
      · rw [hspec] at hhead
        simp at hhead
      · rw [hspec] at hhead
        simp at hhead
        subst hhead
        have hval : validateFields c.spec a = .error e := by
          rw [hspec]
          unfold validateFields
          rw [hchk]
        rw [Command.run_error _ _ _ _ _ hval, hrsn]
  fin_cases hc
  · refine ⟨?_, part2 rfl⟩
    cases hval : validateFields listReceptionSpec a with
    | error e =>
      rw [Command.run_error _ _ _ _ _ hval]
      simp
    | ok u =>
      cases u
      rw [Command.run_ok _ _ _ _ hval]
      have hty : checkField a ⟨"type", .enumOf receptionTypes, true⟩ = none :=
        (validateFields_ok_iff _ _).mp hval _ (by simp [listReceptionSpec])
      obtain ⟨v, hg, hok⟩ := requiredFieldOk a "type" _ hty
      obtain ⟨s, hv, hs⟩ := typeOk_enum _ _ hok
      subst hv
      have hgs : (getStr a "type").getD "" = s := by
        simp [getStr, hg, asStr]
      show ∀ call ∈ ((listReceptionBody a be log).2.drop log.length), _
      unfold listReceptionBody
      rw [hgs]
      by_cases hb : truthyNum (getNum a "branch_id") = true
      · simp only [hb, if_true]
        intro call hcall
        rw [execSql_bind_pure_log, List.drop_left] at hcall
        simp at hcall
        subst hcall
        exact ⟨s, hs, Or.inr (Or.inl rfl)⟩
      · simp only [hb, if_false]
        intro call hcall
        rw [execSql_bind_pure_log, List.drop_left] at hcall
        simp at hcall
        subst hcall
        exact ⟨s, hs, Or.inl rfl⟩
  · refine ⟨?_, part2 rfl⟩
    cases hval : validateFields createReceptionSpec a with
    | error e =>
      rw [Command.run_error _ _ _ _ _ hval]
      simp
    | ok u =>
      cases u
      rw [Command.run_ok _ _ _ _ hval]
      have hty : checkField a ⟨"type", .enumOf receptionTypes, true⟩ = none :=
        (validateFields_ok_iff _ _).mp hval _ (by simp [createReceptionSpec])
      obtain ⟨v, hg, hok⟩ := requiredFieldOk a "type" _ hty
      obtain ⟨s, hv, hs⟩ := typeOk_enum _ _ hok
      subst hv
      have hgs : (getStr a "type").getD "" = s := by
        simp [getStr, hg, asStr]
      show ∀ call ∈ ((createReceptionBody a be log).2.drop log.length), _
      unfold createReceptionBody
      rw [hgs]
      intro call hcall
      rw [execSql_bind_pure_log, List.drop_left] at hcall
      simp at hcall
      subst hcall
      exact ⟨s, hs, Or.inr (Or.inr (Or.inl rfl))⟩
  · refine ⟨?_, part2 rfl⟩
    cases hval : validateFields deleteReceptionSpec a with
    | error e =>
      rw [Command.run_error _ _ _ _ _ hval]
      simp
    | ok u =>
      cases u
      rw [Command.run_ok _ _ _ _ hval]
      have hty : checkField a ⟨"type", .enumOf receptionTypes, true⟩ = none :=
        (validateFields_ok_iff _ _).mp hval _ (by simp [deleteReceptionSpec])
      obtain ⟨v, hg, hok⟩ := requiredFieldOk a "type" _ hty
      obtain ⟨s, hv, hs⟩ := typeOk_enum _ _ hok
      subst hv
      have hgs : (getStr a "type").getD "" = s := by
        simp [getStr, hg, asStr]
      show ∀ call ∈ ((deleteReceptionBody a be log).2.drop log.length), _
      unfold deleteReceptionBody
      rw [hgs]
      intro call hcall
      rw [execSql_bind_pure_log, List.drop_left] at hcall
      simp at hcall
      subst hcall
      exact ⟨s, hs, Or.inr (Or.inr (Or.inr rfl))⟩

/-- Witness for claim C8: a delete_reception_config call whose type is
the out-of-enum string "students" is rejected by validation naming the
type field, before any statement reaches the proxy. -/
theorem reception_table_allowlist_witness :
    ∃ reason,
      deleteReceptionConfigCmd.run [("type", .str "students")] emptyRowsBackend [] =
        (.error (.validation "type" reason), []) :=
  (reception_table_allowlist deleteReceptionConfigCmd (by simp)
      [("type", .str "students")] emptyRowsBackend []).2
    (Or.inr ⟨.str "students", rfl, by simp [typeOk, receptionTypes]⟩)

/-! ## Lemmas about the update_inquiry clause construction -/


theorem updateEntries_eq_entriesOver (a : RawArgs) :
    updateEntries a = entriesOver updatableCols a := rfl

theorem getCol_setCol (r : EnquiryRow) (c c' : UpdCol) (v : JsonVal) :
    getCol (setCol r c v) c' = if c = c' then asStr v else getCol r c' := by
  cases c <;> cases c' <;> simp [setCol, getCol]

theorem setCol_status (r : EnquiryRow) (c : UpdCol) (v : JsonVal) :
    (setCol r c v).status = r.status := by
  cases c <;> rfl

theorem setCol_id (r : EnquiryRow) (c : UpdCol) (v : JsonVal) :
    (setCol r c v).id = r.id := by
  cases c <;> rfl

theorem applyEntries_status (es : List (UpdCol × JsonVal)) :
    ∀ r : EnquiryRow, (applyEntries r es).status = r.status := by
  induction es with
  | nil => intro r; rfl
  | cons e es ih =>
    intro r
    show (applyEntries (setCol r e.1 e.2) es).status = r.status
    rw [ih, setCol_status]

theorem applyEntries_id (es : List (UpdCol × JsonVal)) :
    ∀ r : EnquiryRow, (applyEntries r es).id = r.id := by
  induction es with
  | nil => intro r; rfl
  | cons e es ih =>
    intro r
    show (applyEntries (setCol r e.1 e.2) es).id = r.id
    rw [ih, setCol_id]

/-- A column not in the list is left unchanged by the generated SET
assignments. -/
theorem applyEntries_not_mem (fs : List UpdCol) (a : RawArgs) (c : UpdCol) (hc : c ∉ fs) :
    ∀ r : EnquiryRow, getCol (applyEntries r (entriesOver fs a)) c = getCol r c := by
  induction fs with
  | nil => intro r; rfl
  | cons f fs ih =>
    intro r
    have hne : c ≠ f := fun h => hc (h ▸ List.mem_cons_self ..)
    have hnm : c ∉ fs := fun h => hc (List.mem_cons_of_mem _ h)
    unfold entriesOver
    rw [List.filterMap_cons]
    by_cases ht : truthyStr (getStr a (colName f)) = true
    · rw [if_pos ht]
      show getCol (applyEntries (setCol r f _) (entriesOver fs a)) c = getCol r c
      rw [ih hnm, getCol_setCol, if_neg (fun h => hne h.symm)]
    · rw [if_neg ht]
      exact ih hnm r

/-- A column in a duplicate-free list ends at the supplied value when the
argument is truthy, and is unchanged otherwise. -/
theorem applyEntries_mem (fs : List UpdCol) (a : RawArgs) (c : UpdCol)
    (hc : c ∈ fs) (hnd : fs.Nodup) :
    ∀ r : EnquiryRow,
      getCol (applyEntries r (entriesOver fs a)) c =
        if truthyStr (getStr a (colName c)) = true then getStr a (colName c)
        else getCol r c := by
  induction fs with
  | nil => cases hc
  | cons f fs ih =>
    intro r
    have hndt : fs.Nodup := hnd.of_cons
    unfold entriesOver
    rw [List.filterMap_cons]
    by_cases hcf : c = f
    · subst hcf
      have hnm : c ∉ fs := (List.nodup_cons.mp hnd).1
      by_cases ht : truthyStr (getStr a (colName c)) = true
      · rw [if_pos ht]
        show getCol (applyEntries (setCol r c _) (entriesOver fs a)) c = _
        rw [applyEntries_not_mem fs a c hnm, getCol_setCol, if_pos rfl, if_pos ht]
        obtain ⟨s, hsome⟩ : ∃ s, getStr a (colName c) = some s := by
          cases hg : getStr a (colName c) with
          | none => rw [hg] at ht; simp [truthyStr] at ht
          | some s => exact ⟨s, rfl⟩
        rw [hsome]
        rfl
      · rw [if_neg ht, if_neg ht]
        exact applyEntries_not_mem fs a c hnm r
    · have hcm : c ∈ fs := by
        cases List.mem_cons.mp hc with
        | inl h => exact absurd h hcf
        | inr h => exact h
      by_cases ht : truthyStr (getStr a (colName f)) = true
      · rw [if_pos ht]
        show getCol (applyEntries (setCol r f _) (entriesOver fs a)) c = _
        rw [ih hcm hndt, getCol_setCol,
          if_neg (show ¬(f = c) from fun h => hcf h.symm)]
      · rw [if_neg ht]
        exact ih hcm hndt r

theorem updatableCols_nodup : updatableCols.Nodup := by decide

theorem updatableCols_complete (c : UpdCol) : c ∈ updatableCols := by
  cases c <;> decide

/-- The generated fragment of a column is never the timestamp fragment. -/
theorem colFrag_ne_now (c : UpdCol) : colName c ++ " = ?" ≠ "updated_at = NOW()" := by
  cases c <;> decide

/-- Interpreting a generated fragment sets its column. -/
theorem setFrag_colFrag (r : EnquiryRow) (c : UpdCol) (v : JsonVal) :
    setFrag r (colName c ++ " = ?") v = setCol r c v := by
  cases c <;> rfl

/-- The fragment-by-fragment interpretation of the generated SET list
with its parameter list agrees with applying the entries. -/
theorem applyFragments_entries (es : List (UpdCol × JsonVal)) :
    ∀ r : EnquiryRow,
      applyFragments ((es.map (fun e => colName e.1 ++ " = ?")) ++ ["updated_at = NOW()"])
        (es.map Prod.snd) r = applyEntries r es := by
  induction es with
  | nil =>
    intro r
    show applyFragments ["updated_at = NOW()"] [] r = r
    unfold applyFragments
    rw [if_pos rfl]
    rfl
  | cons e es ih =>
    intro r
    show applyFragments ((colName e.1 ++ " = ?") :: _) (e.2 :: _) r = _
    unfold applyFragments
    rw [if_neg (colFrag_ne_now e.1)]
    show applyFragments _ _ (setFrag r (colName e.1 ++ " = ?") e.2) = _
    rw [setFrag_colFrag]
    exact ih (setCol r e.1 e.2)

/-- The generated UPDATE fragment list interpreted on a row equals the
typed SET assignments. -/
theorem applyFragments_updatesList (a : RawArgs) (r : EnquiryRow) :
    applyFragments (updatesList a) (valuesList a) r = applyEntries r (updateEntries a) :=
  applyFragments_entries (updateEntries a) r

/-- A list with no truthy-supplied column produces no entries. -/
theorem entriesOver_nil_of_falsy (fs : List UpdCol) (a : RawArgs)
    (h : ∀ c : UpdCol, truthyStr (getStr a (colName c)) = false) :
    entriesOver fs a = [] := by
  unfold entriesOver
  rw [List.filterMap_eq_nil_iff]
  intro c _
  rw [h c]
  rfl

/-- Counterexample to claim C6 as stated: supplying email as the empty
string and a status value, both accepted by the validator, produces no
SET clause at all -- the handler reports the no-op and issues no UPDATE,
so neither supplied field has its stored value become the supplied value. -/
theorem update_inquiry_claim_counterexample :
    updateInquiryCmd.run [("id", .num 1), ("email", .str ""), ("status", .str "dead")]
        emptyRowsBackend [] =
      (.ok (textResponse "No fields to update provided."), []) ∧
    updatesList [("id", .num 1), ("email", .str ""), ("status", .str "dead")] =
      ["updated_at = NOW()"] := by
  exact ⟨rfl, rfl⟩

/-- Claim C6 as amended: the update_inquiry SET list is built from only
the truthy-supplied fields among the eight updatable columns (a supplied
empty string counts as not supplied, and status is never written); the
generated statement leaves every other column unchanged and sets each
truthy-supplied column to its supplied value; and when no updatable field
is truthy-supplied the handler executes no statement and reports the
no-op text. -/
theorem update_inquiry_supplied_fields_only (a : RawArgs) (be : Backend) (log : List ProxyCall)
    (row : EnquiryRow) :
    ((∀ c : UpdCol, truthyStr (getStr a (colName c)) = false) →
      updateInquiryBody a be log = (.ok (textResponse "No fields to update provided."), log)) ∧
    (updateEntries a ≠ [] →
      (updateInquiryBody a be log).2 =
        log ++ [⟨updateInquirySql a, valuesList a ++ [.num ((getNum a "id").getD 0)]⟩]) ∧
    applyFragments (updatesList a) (valuesList a) row = applyEntries row (updateEntries a) ∧
    (∀ c : UpdCol, getCol (applyEntries row (updateEntries a)) c =
      if truthyStr (getStr a (colName c)) = true then getStr a (colName c)
      else getCol row c) ∧
    (applyEntries row (updateEntries a)).status = row.status ∧
    (applyEntries row (updateEntries a)).id = row.id := by
  refine ⟨?_, ?_, applyFragments_updatesList a row, ?_, applyEntries_status _ row,
    applyEntries_id _ row⟩
  · intro h
    have he : updateEntries a = [] := entriesOver_nil_of_falsy updatableCols a h
    unfold updateInquiryBody
    rw [if_pos ?_]
    · rfl
    · unfold updatesList
      rw [he]
      simp
  · intro hne
    have hlen : ¬((updatesList a).length ≤ 1) := by
      unfold updatesList
      rcases he : updateEntries a with _ | ⟨e, es⟩
      · exact absurd he hne
      · simp
    unfold updateInquiryBody
    rw [if_neg hlen, execSql_bind_eq]
    cases sqlProxyRun (be log.length (updateInquirySql a)
        (valuesList a ++ [.num ((getNum a "id").getD 0)])) with
    | error m => rfl
    | ok r =>
      by_cases haf : affectedRowsOf r = some 0
      · simp [haf, M.throw]
      · simp [haf, M.pure]
  · intro c
    exact applyEntries_mem updatableCols a c (updatableCols_complete c) updatableCols_nodup row

/-- Witness for the amended claim C6: a call supplying only name leaves a
row email field unchanged and sets name to the supplied value, and a call
supplying nothing updatable reports the no-op. -/
theorem update_inquiry_supplied_fields_only_witness :
    updateInquiryBody [("id", .num 1)] emptyRowsBackend [] =
      (.ok (textResponse "No fields to update provided."), []) :=
  (update_inquiry_supplied_fields_only [("id", .num 1)] emptyRowsBackend []
      ⟨1, 1, "", none, none, none, none, none, none, none, none, none, none, none, 1⟩).1
    (by intro c; cases c <;> rfl)

/-- Claim C9: the advertised update_inquiry schema and its validator both
accept an optional status string, but the clause construction omits
status: no generated statement contains a status assignment, and a call
supplying only id and status executes nothing and reports the no-op. -/
theorem update_inquiry_status_ignored :
    ("status", "string") ∈ updateInquiryAdvertisedProps ∧
    (⟨"status", .str, false⟩ : FieldSpec) ∈ updateInquirySpec ∧
    (∀ a : RawArgs, "status = ?" ∉ updatesList a) ∧
    (∀ (i : Rat) (s : String) (be : Backend) (log : List ProxyCall),
      updateInquiryCmd.run [("id", .num i), ("status", .str s)] be log =
        (.ok (textResponse "No fields to update provided."), log)) := by
  refine ⟨by simp [updateInquiryAdvertisedProps], by simp [updateInquirySpec], ?_, ?_⟩
  · intro a h
    unfold updatesList at h
    rcases List.mem_append.mp h with h1 | h2
    · obtain ⟨e, _, heq⟩ := List.mem_map.mp h1
      have : colName e.1 ++ " = ?" ≠ "status = ?" := by
        cases e.1 <;> decide
      exact this heq
    · simp at h2
  · intro i s be log
    rfl

/-- A numeric filter step only reads its own key. -/
theorem addNumFilter_congr (a a' : RawArgs) (key clause : String)
    (qp : String × List JsonVal) (h : getNum a key = getNum a' key) :
    addNumFilter a key clause qp = addNumFilter a' key clause qp := by
  unfold addNumFilter
  rw [h]

/-- A string filter step only reads its own key. -/
theorem addStrFilter_congr (a a' : RawArgs) (key clause : String)
    (qp : String × List JsonVal) (h : getStr a key = getStr a' key) :
    addStrFilter a key clause qp = addStrFilter a' key clause qp := by
  unfold addStrFilter
  rw [h]

/-- The search filter step only reads the search key. -/
theorem addSearchFilter_congr (a a' : RawArgs) (qp : String × List JsonVal)
    (h : getStr a "search" = getStr a' "search") :
    addSearchFilter a qp = addSearchFilter a' qp := by
  unfold addSearchFilter
  rw [h]

/-- Claim C10: a supplied-but-falsy optional argument is treated as
absent.  list_inquiries with branch_id 0 builds the same query and
parameters as with branch_id omitted; update_inquiry with a field set to
the empty string builds the same SET entries as with the field omitted,
and a call carrying only id and an empty email reports the no-op without
executing a statement. -/
theorem falsy_optional_treated_as_absent :
    (∀ ps : RawArgs, getArg ps "branch_id" = none →
      listInquiriesQP (("branch_id", .num 0) :: ps) = listInquiriesQP ps) ∧
    (∀ ps : RawArgs, getArg ps "email" = none →
      updateEntries (("email", .str "") :: ps) = updateEntries ps) ∧
    (∀ (i : Rat) (be : Backend) (log : List ProxyCall),
      updateInquiryCmd.run [("id", .num i), ("email", .str "")] be log =
        (.ok (textResponse "No fields to update provided."), log)) := by
  refine ⟨?_, ?_, ?_⟩
  · intro ps h
    have hother : ∀ k, k ≠ "branch_id" →
        getArg (("branch_id", JsonVal.num 0) :: ps) k = getArg ps k := by
      intro k hk
      have hbe : (k == "branch_id") = false := beq_eq_false_iff_ne.mpr hk
      simp [getArg, List.lookup, hbe]
    have hnum : ∀ k, k ≠ "branch_id" →
        getNum (("branch_id", JsonVal.num 0) :: ps) k = getNum ps k := by
      intro k hk
      unfold getNum
      rw [hother k hk]
    have hstr : ∀ k, k ≠ "branch_id" →
        getStr (("branch_id", JsonVal.num 0) :: ps) k = getStr ps k := by
      intro k hk
      unfold getStr
      rw [hother k hk]
    have hbA : getNum (("branch_id", JsonVal.num 0) :: ps) "branch_id" = some 0 := by
      simp [getNum, getArg, List.lookup, asNum]
    have hb0 : getNum ps "branch_id" = none := by
      unfold getNum
      rw [h]
      rfl
    have hinner : addNumFilter (("branch_id", JsonVal.num 0) :: ps) "branch_id"
          " AND e.branch_id = ?" (listInquiriesBase, []) =
        addNumFilter ps "branch_id" " AND e.branch_id = ?" (listInquiriesBase, []) := by
      unfold addNumFilter
      rw [hbA, hb0]
      simp [truthyNum]
    have hfilters : listFilters (("branch_id", JsonVal.num 0) :: ps) = listFilters ps := by
      unfold listFilters
      rw [hinner]
      rw [addNumFilter_congr _ ps _ _ _ (hnum "created_by" (by decide)),
        addStrFilter_congr _ ps _ _ _ (hstr "end_date" (by decide)),
        addStrFilter_congr _ ps _ _ _ (hstr "start_date" (by decide)),
        addNumFilter_congr _ ps _ _ _ (hnum "class_id" (by decide)),
        addNumFilter_congr _ ps _ _ _ (hnum "source_id" (by decide)),
        addStrFilter_congr _ ps _ _ _ (hstr "status" (by decide)),
        addSearchFilter_congr _ ps _ (hstr "search" (by decide))]
    unfold listInquiriesQP limitOf offsetOf
    rw [hfilters, hnum "limit" (by decide), hnum "offset" (by decide)]
  · intro ps h
    have hother : ∀ k, k ≠ "email" →
        getArg (("email", JsonVal.str "") :: ps) k = getArg ps k := by
      intro k hk
      have hbe : (k == "email") = false := beq_eq_false_iff_ne.mpr hk
      simp [getArg, List.lookup, hbe]
    have hmA : getArg (("email", JsonVal.str "") :: ps) "email" = some (JsonVal.str "") := by
      simp [getArg, List.lookup]
    unfold updateEntries
    apply List.filterMap_congr
    intro c _
    cases c with
    | cEmail =>
      simp only [colName, getStr]
      rw [hmA, h]
      rfl
    | cName =>
      simp only [colName, getStr, hother "name" (by decide)]
    | cMobileNo =>
      simp only [colName, getStr, hother "mobile_no" (by decide)]
    | cFatherName =>
      simp only [colName, getStr, hother "father_name" (by decide)]
    | cMotherName =>
      simp only [colName, getStr, hother "mother_name" (by decide)]
    | cAddress =>
      simp only [colName, getStr, hother "address" (by decide)]
    | cResponse =>
      simp only [colName, getStr, hother "response" (by decide)]
    | cNote =>
      simp only [colName, getStr, hother "note" (by decide)]
  · intro i be log
    rfl

/-- Witness for claim C10: with no other arguments, branch_id 0 and an
omitted branch_id produce identical list_inquiries queries, and an empty
email produces the same (empty) update entry list as omitting it. -/
theorem falsy_optional_treated_as_absent_witness :
    listInquiriesQP [("branch_id", .num 0)] = listInquiriesQP [] ∧
    updateEntries [("email", .str "")] = updateEntries [] :=
  ⟨falsy_optional_treated_as_absent.1 [] rfl,
   falsy_optional_treated_as_absent.2.1 [] rfl⟩

/-- Claim C7: when limit and offset are omitted from list_inquiries
arguments they default to 50 and 0, the generated query is some filter
prefix followed by the deterministic ordering clause and LIMIT ? OFFSET ?,
the parameter list ends with exactly those two values, and the meaning of
the generated statement never yields more than 50 (= limit) records. -/
theorem list_inquiries_default_pagination (a : RawArgs)
    (hl : getArg a "limit" = none) (ho : getArg a "offset" = none) :
    limitOf a = 50 ∧ offsetOf a = 0 ∧
    (∃ p, (listInquiriesQP a).1 = p ++ " ORDER BY e.date DESC, e.id DESC LIMIT ? OFFSET ?") ∧
    (listInquiriesQP a).2 = (listFilters a).2 ++ [.num 50, .num 0] ∧
    (∀ db : List EnquiryRow, (listInquiriesInterp db a).length ≤ 50) := by
  have hlim : limitOf a = 50 := by
    unfold limitOf getNum
    rw [hl]
    rfl
  have hoff : offsetOf a = 0 := by
    unfold offsetOf getNum
    rw [ho]
    rfl
  refine ⟨hlim, hoff, ⟨(listFilters a).1, rfl⟩, ?_, ?_⟩
  · show ((listFilters a).2 ++ [.num (limitOf a), .num (offsetOf a)]) = _
    rw [hlim, hoff]
  · intro db
    unfold listInquiriesInterp
    rw [hlim]
    calc (((sortRows (db.filter (matchesFilters a))).drop (ratToNat (offsetOf a))).take
            (ratToNat 50)).length
        ≤ ratToNat 50 := by
          rw [List.length_take]
          exact Nat.min_le_left _ _
      _ = 50 := by rfl

/-- Witness for claim C7: an empty argument object omits limit and
offset, so the defaults 50 and 0 apply and no query result exceeds 50
rows. -/
theorem list_inquiries_default_pagination_witness :
    limitOf [] = 50 ∧ offsetOf [] = 0 ∧
    (∃ p, (listInquiriesQP []).1 =
      p ++ " ORDER BY e.date DESC, e.id DESC LIMIT ? OFFSET ?") ∧
    (listInquiriesQP []).2 = (listFilters []).2 ++ [.num 50, .num 0] ∧
    (∀ db : List EnquiryRow, (listInquiriesInterp db []).length ≤ 50) :=
  list_inquiries_default_pagination [] rfl rfl

/-- The running total kept in the loop is the sum of the item
subtotals. -/
theorem purchaseTotal_eq_sum (items : List JsonVal) :
    purchaseTotal items = (items.map itemSubtotal).sum := by
  have h : ∀ (l : List JsonVal) (c : Rat),
      l.foldl (fun t it => t + itemSubtotal it) c = c + (l.map itemSubtotal).sum := by
    intro l
    induction l with
    | nil => intro c; simp
    | cons it l ih =>
      intro c
      rw [List.foldl_cons, ih, List.map_cons, List.sum_cons]
      ring
  unfold purchaseTotal
  rw [h]
  simp

/-- The per-item loop always issues an in-order prefix of the per-item
call pairs: on success the whole list, and on a failure everything up to
and including the failing statement, with nothing after it (no rollback,
no compensation). -/
theorem purchaseLoop_front (billId : JsonVal) (be : Backend) :
    ∀ (items : List JsonVal) (log : List ProxyCall),
      ∃ t, (purchaseLoop billId items be log).2 ++ t =
        log ++ items.flatMap (fun it => [purchaseDetailCall billId it, purchaseStockCall it]) := by
  intro items
  induction items with
  | nil =>
    intro log
    exact ⟨[], by simp [purchaseLoop, M.pure]⟩
  | cons it rest ih =>
    intro log
    unfold purchaseLoop
    rw [execSql_bind_eq]
    cases sqlProxyRun (be log.length (purchaseDetailCall billId it).sql
        (purchaseDetailCall billId it).params) with
    | error m =>
      refine ⟨purchaseStockCall it ::
        rest.flatMap (fun it => [purchaseDetailCall billId it, purchaseStockCall it]), ?_⟩
      show (log ++ [purchaseDetailCall billId it]) ++ _ = _
      simp
    | ok r =>
      rw [execSql_bind_eq]
      cases sqlProxyRun (be (log ++ [purchaseDetailCall billId it]).length
          (purchaseStockCall it).sql (purchaseStockCall it).params) with
      | error m =>
        refine ⟨rest.flatMap (fun it => [purchaseDetailCall billId it, purchaseStockCall it]), ?_⟩
        show ((log ++ [purchaseDetailCall billId it]) ++ [purchaseStockCall it]) ++ _ = _
        simp
      | ok r2 =>
        obtain ⟨t, ht⟩ :=
          ih ((log ++ [purchaseDetailCall billId it]) ++ [purchaseStockCall it])
        refine ⟨t, ?_⟩
        rw [ht]
        simp

/-- When every call succeeds, the per-item loop issues exactly the
per-item call pairs, in the order supplied. -/
theorem purchaseLoop_all_ok (billId : JsonVal) (be : Backend)
    (hok : ∀ (n : Nat) (sql : String) (ps : List JsonVal),
      (sqlProxyRun (be n sql ps)).isOk = true) :
    ∀ (items : List JsonVal) (log : List ProxyCall),
      purchaseLoop billId items be log =
        (.ok (),
         log ++ items.flatMap (fun it => [purchaseDetailCall billId it, purchaseStockCall it])) := by
  intro items
  induction items with
  | nil =>
    intro log
    simp [purchaseLoop, M.pure]
  | cons it rest ih =>
    intro log
    unfold purchaseLoop
    rw [execSql_bind_eq]
    cases hr : sqlProxyRun (be log.length (purchaseDetailCall billId it).sql
        (purchaseDetailCall billId it).params) with
    | error m =>
      have := hok log.length (purchaseDetailCall billId it).sql (purchaseDetailCall billId it).params
      rw [hr] at this
      simp [Except.isOk, Except.toBool] at this
    | ok r =>
      rw [execSql_bind_eq]
      cases hr2 : sqlProxyRun (be (log ++ [purchaseDetailCall billId it]).length
          (purchaseStockCall it).sql (purchaseStockCall it).params) with
      | error m =>
        have := hok (log ++ [purchaseDetailCall billId it]).length
          (purchaseStockCall it).sql (purchaseStockCall it).params
        rw [hr2] at this
        simp [Except.isOk, Except.toBool] at this
      | ok r2 =>
        rw [ih ((log ++ [purchaseDetailCall billId it]) ++ [purchaseStockCall it])]
        simp


/-- Claim C5: create_purchase computes the bill total as the
sum over the items of quantity times unit price minus discount, and the
statements it issues are always an in-order prefix of the sequence: one
purchase_bill insert, then per item (in supplied order) one
purchase_bill_details insert referencing the generated bill identifier
followed by one stock-increment update.  There is no transaction: a
failure partway through leaves the prefix already issued with no further
(rollback) statement.  When every call succeeds the whole sequence is
issued, in order, and the handler reports the bill identifier. -/
theorem create_purchase_statement_sequence (a : RawArgs) (be : Backend) :
    purchaseTotal ((getArr a "items").getD []) =
      (((getArr a "items").getD []).map
        (fun it => itemNum it "quantity" * itemNum it "unit_price" - itemDiscount it)).sum ∧
    (∃ t, (createPurchaseBody a be []).2 ++ t = purchaseCallSeq a (purchaseBillIdOf a be)) ∧
    ((∀ (n : Nat) (sql : String) (ps : List JsonVal),
        (sqlProxyRun (be n sql ps)).isOk = true) →
      ∃ r0, sqlProxyRun (be 0 purchaseBillSql (purchaseBillParams a)) = .ok r0 ∧
        createPurchaseBody a be [] =
          (.ok (textResponse ("Purchase order created. Bill ID: " ++ showInsertId r0)),
           purchaseCallSeq a (insertIdVal r0))) := by
  refine ⟨purchaseTotal_eq_sum _, ?_, ?_⟩
  · unfold createPurchaseBody
    rw [show (execSql purchaseBillSql (purchaseBillParams a)).bind
        (fun r => M.bind (purchaseLoop (insertIdVal r) ((getArr a "items").getD []))
          (fun _ => M.pure (textResponse ("Purchase order created. Bill ID: " ++ showInsertId r))))
        be [] = _ from execSql_bind_eq purchaseBillSql (purchaseBillParams a) _ be []]
    unfold purchaseBillIdOf
    cases hr : sqlProxyRun (be ([] : List ProxyCall).length purchaseBillSql
        (purchaseBillParams a)) with
    | error m =>
      refine ⟨((getArr a "items").getD []).flatMap
        (fun it => [purchaseDetailCall JsonVal.null it, purchaseStockCall it]), ?_⟩
      show [(⟨purchaseBillSql, purchaseBillParams a⟩ : ProxyCall)] ++ _ = _
      rw [show sqlProxyRun (be 0 purchaseBillSql (purchaseBillParams a)) = .error m from hr]
      rfl
    | ok r =>
      rw [show sqlProxyRun (be 0 purchaseBillSql (purchaseBillParams a)) = .ok r from hr]
      obtain ⟨t, ht⟩ := purchaseLoop_front (insertIdVal r) be ((getArr a "items").getD [])
        [⟨purchaseBillSql, purchaseBillParams a⟩]
      refine ⟨t, ?_⟩
      show ((M.bind (purchaseLoop (insertIdVal r) ((getArr a "items").getD []))
          (fun _ => M.pure _) be [⟨purchaseBillSql, purchaseBillParams a⟩]).2) ++ t = _
      have hloopsnd : ∀ (m : M Unit) (g : Response) (be' : Backend) (lg : List ProxyCall),
          (M.bind m (fun _ => M.pure g) be' lg).2 = (m be' lg).2 := by
        intro m g be' lg
        unfold M.bind M.pure
        rcases m be' lg with ⟨res, lg'⟩
        cases res <;> rfl
      rw [hloopsnd]
      rw [ht]
      rfl
  · intro hok
    cases hr : sqlProxyRun (be 0 purchaseBillSql (purchaseBillParams a)) with
    | error m =>
      have := hok 0 purchaseBillSql (purchaseBillParams a)
      rw [hr] at this
      simp [Except.isOk, Except.toBool] at this
    | ok r0 =>
      refine ⟨r0, rfl, ?_⟩
      unfold createPurchaseBody
      rw [show (execSql purchaseBillSql (purchaseBillParams a)).bind
          (fun r => M.bind (purchaseLoop (insertIdVal r) ((getArr a "items").getD []))
            (fun _ => M.pure (textResponse ("Purchase order created. Bill ID: " ++ showInsertId r))))
          be [] = _ from execSql_bind_eq purchaseBillSql (purchaseBillParams a) _ be []]
      rw [show sqlProxyRun (be ([] : List ProxyCall).length purchaseBillSql
          (purchaseBillParams a)) = .ok r0 from hr]
      show M.bind (purchaseLoop (insertIdVal r0) ((getArr a "items").getD []))
          (fun _ => M.pure (textResponse ("Purchase order created. Bill ID: " ++ showInsertId r0)))
          be ([] ++ [⟨purchaseBillSql, purchaseBillParams a⟩]) = _
      unfold M.bind
      rw [show ([] ++ [(⟨purchaseBillSql, purchaseBillParams a⟩ : ProxyCall)]) =
          [(⟨purchaseBillSql, purchaseBillParams a⟩ : ProxyCall)] from rfl]
      rw [purchaseLoop_all_ok (insertIdVal r0) be hok ((getArr a "items").getD [])
        [⟨purchaseBillSql, purchaseBillParams a⟩]]
      rfl


/-- Witness for claim C5: a one-item purchase against an always-ok
backend issues exactly the bill insert, the detail insert and the stock
update, in order, reporting bill id 7. -/
theorem create_purchase_statement_sequence_witness :
    ∃ r0, sqlProxyRun (okPacketBackend 0 purchaseBillSql (purchaseBillParams
        [("bill_no", .str "B1"), ("supplier_id", .num 1), ("store_id", .num 1),
         ("date", .str "2026-01-01"),
         ("items", .arr [.obj [("product_id", .num 2), ("quantity", .num 3),
                               ("unit_price", .num 5)]])])) = .ok r0 ∧
      createPurchaseBody
          [("bill_no", .str "B1"), ("supplier_id", .num 1), ("store_id", .num 1),
           ("date", .str "2026-01-01"),
           ("items", .arr [.obj [("product_id", .num 2), ("quantity", .num 3),
                                 ("unit_price", .num 5)]])]
          okPacketBackend [] =
        (.ok (textResponse ("Purchase order created. Bill ID: " ++ showInsertId r0)),
         purchaseCallSeq
           [("bill_no", .str "B1"), ("supplier_id", .num 1), ("store_id", .num 1),
            ("date", .str "2026-01-01"),
            ("items", .arr [.obj [("product_id", .num 2), ("quantity", .num 3),
                                  ("unit_price", .num 5)]])]
           (insertIdVal r0)) :=
  (create_purchase_statement_sequence _ okPacketBackend).2.2 (fun _ _ _ => rfl)

/-- Claim C3: two concurrently served requests carrying distinct truthy
api_key values never observe the credential of the other.  Under any
interleaving of the two requests, every proxy call made while serving the
first request carries the key of the first request and never that of the
second, and symmetrically -- the credential is resolved from the
AsyncLocalStorage context of the request itself at each execute call. -/
theorem credential_isolation (r0 r1 : AlsRequest) (dk k0 k1 : String)
    (h0 : r0.apiKey = some k0) (h1 : r1.apiKey = some k1)
    (h0t : k0 ≠ "") (h1t : k1 ≠ "") (hne : k0 ≠ k1) :
    ∀ sched : List Bool, ∀ e ∈ serveConcurrent dk r0 r1 sched,
      (e.fromSecond = false → e.keyUsed = k0 ∧ e.keyUsed ≠ k1) ∧
      (e.fromSecond = true → e.keyUsed = k1 ∧ e.keyUsed ≠ k0) := by
  have hres0 : resolveApiKey r0.apiKey dk = k0 := by
    rw [h0]
    show (if k0 = "" then dk else k0) = k0
    rw [if_neg h0t]
  have hres1 : resolveApiKey r1.apiKey dk = k1 := by
    rw [h1]
    show (if k1 = "" then dk else k1) = k1
    rw [if_neg h1t]
  intro sched
  induction sched generalizing r0 r1 with
  | nil =>
    intro e he
    simp [serveConcurrent] at he
  | cons t rest ih =>
    intro e he
    cases t with
    | true =>
      cases hp : r1.pending with
      | nil =>
        rw [show serveConcurrent dk r0 r1 (true :: rest) =
            serveConcurrent dk r0 r1 rest by
          simp only [serveConcurrent]
          rw [if_pos trivial, hp]] at he
        exact ih r0 r1 h0 h1 hres0 hres1 e he
      | cons c cs =>
        rw [show serveConcurrent dk r0 r1 (true :: rest) =
            ⟨true, c, resolveApiKey r1.apiKey dk⟩ ::
              serveConcurrent dk r0 ⟨r1.apiKey, cs⟩ rest by
          simp only [serveConcurrent]
          rw [if_pos trivial, hp]] at he
        cases he with
        | head =>
          refine ⟨fun hfalse => by simp at hfalse, fun _ => ?_⟩
          rw [hres1] at *
          exact ⟨rfl, fun hk => hne hk.symm⟩
        | tail _ htl =>
          exact ih r0 ⟨r1.apiKey, cs⟩ h0 h1 hres0 hres1 e htl
    | false =>
      cases hp : r0.pending with
      | nil =>
        rw [show serveConcurrent dk r0 r1 (false :: rest) =
            serveConcurrent dk r0 r1 rest by
          simp only [serveConcurrent]
          rw [if_neg (show ¬(false = true) by decide), hp]] at he
        exact ih r0 r1 h0 h1 hres0 hres1 e he
      | cons c cs =>
        rw [show serveConcurrent dk r0 r1 (false :: rest) =
            ⟨false, c, resolveApiKey r0.apiKey dk⟩ ::
              serveConcurrent dk ⟨r0.apiKey, cs⟩ r1 rest by
          simp only [serveConcurrent]
          rw [if_neg (show ¬(false = true) by decide), hp]] at he
        cases he with
        | head =>
          refine ⟨fun _ => ?_, fun htrue => by simp at htrue⟩
          rw [hres0] at *
          exact ⟨rfl, hne⟩
        | tail _ htl =>
          exact ih ⟨r0.apiKey, cs⟩ r1 h0 h1 hres0 hres1 e htl

/-- Witness for claim C3: two one-call requests with keys alice and bob,
interleaved bob-first: the call served for the second request carries the
key bob (and, by the theorem, not alice). -/
theorem credential_isolation_witness :
    (⟨true, ⟨"S2", []⟩, "bob"⟩ : SentCall).keyUsed = "bob" :=
  ((credential_isolation ⟨some "alice", [⟨"S1", []⟩]⟩ ⟨some "bob", [⟨"S2", []⟩]⟩
      "default" "alice" "bob" rfl rfl (by decide) (by decide) (by decide) [true, false]
      ⟨true, ⟨"S2", []⟩, "bob"⟩ (List.Mem.head _)).2 rfl).1

end Gurukul
